import Mathlib

/-!
Verification of the `custom_injector` dependency-injection core
(`core.py`, `providers.py`, `scopes.py`, `exceptions.py`) against its
natural-language specification.

The embedding models Python runtime state explicitly: binding keys are
naturals standing for Python types, the injector's four mutable maps
(`_bindings`, `_instances`, `_currently_resolving`, `_scopes_instances`)
are association lists / lists inside an `InjectorState`, and every
operation threads that state and returns `Except DIError`.  Object
identity is modelled by an allocation counter: each constructed instance
(and each scope-class instance) receives a fresh numeric id.  Recursive
resolution (`Injector.get`) is written with explicit fuel; running out of
fuel is a distinguished outcome `DIError.fuelExhausted` that no theorem
confuses with the program's own errors.
-/

namespace CustomInjector

/-- Binding keys (Python types / hashable identities). -/
abbrev Key := Nat

/-- The two scope behaviours shipped by the core (`scopes.py`). -/
inductive ScopeKind where
  | transient
  | singleton
deriving DecidableEq, Repr

/-- Python runtime values visible to the injector.  A constructed class
instance is `obj cls id` where `id` is its allocation identity. -/
inductive Value where
  | vnone
  | vbool (b : Bool)
  | vint (n : Int)
  | vstr (s : String)
  | obj (cls : Key) (id : Nat)
deriving DecidableEq, Repr

/-- `inspect.Parameter.kind` as used by `_resolve_dependencies`. -/
inductive ParamKind where
  | posOnly
  | posOrKw
  | kwOnly
  | varPos
  | varKw
deriving DecidableEq, Repr

/-- One parameter of a constructor or factory signature (the implicit
`self` receiver already stripped, as `_resolve_dependencies` does).
`annot = none` models `inspect.Parameter.empty` (no type marker). -/
structure Param where
  pname : String
  kind : ParamKind
  annot : Option Key
  dflt : Option Value
deriving DecidableEq, Repr

/-- What a factory body returns once its parameters are resolved:
either a fixed value or a freshly allocated instance of some class. -/
inductive FactoryResult where
  | retValue (v : Value)
  | retFresh (cls : Key)
deriving DecidableEq, Repr

/-- `providers.py`: `ValueProvider`, `ClassProvider`, `FactoryProvider`.
A factory carries its own signature (Python callables do). -/
inductive Provider where
  | valueP (v : Value)
  | classP (cls : Key)
  | factoryP (params : List Param) (res : FactoryResult)
deriving DecidableEq, Repr

/-- Outcome of running a Python constructor: `none` means it returns
normally, `some k` means it raises an error of kind `k`. -/
inductive PyErrKind where
  | typeErr
  | otherErr
deriving DecidableEq, Repr

/-- A scope class (`scopes.py` subclasses of `Scope`): its identity for
the injector's per-class cache, the behaviour of its instances, and the
outcome of calling `scope_class(injector)` resp. `scope_class()`. -/
structure ScopeClass where
  sid : Nat
  kind : ScopeKind
  initWithInjector : Option PyErrKind
  initNoArg : Option PyErrKind
deriving DecidableEq, Repr

/-- A constructed scope instance; `instId` is its object identity,
`gotInjector` records which constructor form produced it. -/
structure ScopeInst where
  instId : Nat
  ofClass : Nat
  kind : ScopeKind
  gotInjector : Bool
deriving DecidableEq, Repr

/-- `scopes.TransientScope`: its `Scope.__init__(self, injector=None)`
accepts the injector and never raises. -/
def TransientScope : ScopeClass :=
  ⟨0, ScopeKind.transient, Option.none, Option.none⟩

/-- `scopes.SingletonScope`: same constructor behaviour. -/
def SingletonScope : ScopeClass :=
  ⟨1, ScopeKind.singleton, Option.none, Option.none⟩

/-- `core.Binding`: key, provider and the scope instance stored at bind
time. -/
structure Binding where
  key : Key
  provider : Provider
  scope : ScopeInst
deriving DecidableEq, Repr

/-- The error taxonomy of `exceptions.py`, plus a propagated non-DI
Python error and the interpreter-only fuel marker. -/
inductive DIError where
  | bindingError
  | resolutionError
  | circularDependencyError
  | pyError (k : PyErrKind)
  | fuelExhausted
deriving DecidableEq, Repr

/-- `CircularDependencyError` is a subclass of `ResolutionError`. -/
def DIError.isResolutionError : DIError → Bool
  | DIError.resolutionError => true
  | DIError.circularDependencyError => true
  | _ => false

/-- Lookup in a Python dict modelled as an association list. -/
def getEntry {β : Type} : List (Nat × β) → Nat → Option β
  | [], _ => Option.none
  | (k, v) :: rest, key => if k = key then some v else getEntry rest key

/-- Store into a Python dict: replace the entry if present, append
otherwise. -/
def setEntry {β : Type} : List (Nat × β) → Nat → β → List (Nat × β)
  | [], key, v => [(key, v)]
  | (k, w) :: rest, key, v =>
      if k = key then (key, v) :: rest else (k, w) :: setEntry rest key v

/-- `set.remove`: drop (the first occurrence of) a key from the
in-flight set; the injector never holds duplicates there. -/
def removeKey : List Key → Key → List Key
  | [], _ => []
  | k :: rest, key => if k = key then rest else k :: removeKey rest key

/-- The injector's mutable state (`Injector.__init__`), plus the
allocation counter for object identity and a log of the binding keys
whose provider callable was entered (innermost first). -/
structure InjectorState where
  bindings : List (Key × Binding)
  instances : List (Key × Value)
  currentlyResolving : List Key
  scopeInstances : List (Nat × ScopeInst)
  counter : Nat
  provLog : List Key
deriving DecidableEq, Repr

/-- A freshly constructed `Injector()`. -/
def initState : InjectorState := ⟨[], [], [], [], 0, []⟩

/-- The ambient world of Python classes: for a key that denotes a class
(`isinstance(key, type)`), the parameter list of its `__init__` with the
receiver stripped; `none` for a non-class key. -/
structure Env where
  classes : Key → Option (List Param)

/-- `Injector._get_scope_instance`: per-scope-class cache; on a miss,
try `scope_class(self)`, fall back to `scope_class()` only on
`TypeError`, and wrap a failure of the fallback in `BindingError`. -/
def getScopeInstance (sc : ScopeClass) (s : InjectorState) :
    Except DIError ScopeInst × InjectorState :=
  match getEntry s.scopeInstances sc.sid with
  | some inst => (Except.ok inst, s)
  | Option.none =>
    match sc.initWithInjector with
    | Option.none =>
        let inst : ScopeInst := ⟨s.counter, sc.sid, sc.kind, true⟩
        (Except.ok inst,
         { s with counter := s.counter + 1,
                  scopeInstances := setEntry s.scopeInstances sc.sid inst })
    | some PyErrKind.typeErr =>
        match sc.initNoArg with
        | Option.none =>
            let inst : ScopeInst := ⟨s.counter, sc.sid, sc.kind, false⟩
            (Except.ok inst,
             { s with counter := s.counter + 1,
                      scopeInstances := setEntry s.scopeInstances sc.sid inst })
        | some _ => (Except.error DIError.bindingError, s)
    | some PyErrKind.otherErr =>
        (Except.error (DIError.pyError PyErrKind.otherErr), s)

/-- `Injector.bind`.  The three target specifiers are the Python
parameter values: `to_class`/`to_factory` default to `None` (`none`),
`to_value` defaults to `None` (`Value.vnone`) — passing `None`
explicitly is indistinguishable from omitting the argument, exactly as
in the source.  Validation counts how many of the three are `None`;
provider selection tests `to_class`/`to_factory` by truthiness (class
and callable objects are always truthy) and `to_value` by
`is not None`. -/
def bind (env : Env) (key : Key) (to_class : Option Key)
    (to_factory : Option (List Param × FactoryResult)) (to_value : Value)
    (scope : ScopeClass) (s : InjectorState) :
    Except DIError Unit × InjectorState :=
  let noneCount : Nat :=
    (if to_class.isNone then 1 else 0) + (if to_factory.isNone then 1 else 0)
      + (if to_value = Value.vnone then 1 else 0)
  if noneCount < 2 then (Except.error DIError.bindingError, s)
  else
    let providerRes : Except DIError Provider :=
      match to_class with
      | some c => Except.ok (Provider.classP c)
      | Option.none =>
        match to_factory with
        | some pf => Except.ok (Provider.factoryP pf.1 pf.2)
        | Option.none =>
          if to_value ≠ Value.vnone then Except.ok (Provider.valueP to_value)
          else
            match env.classes key with
            | some _ => Except.ok (Provider.classP key)
            | Option.none => Except.error DIError.bindingError
    match providerRes with
    | Except.error e => (Except.error e, s)
    | Except.ok p =>
      match getScopeInstance scope s with
      | (Except.error e, s1) => (Except.error e, s1)
      | (Except.ok inst, s1) =>
        (Except.ok (),
         { s1 with bindings := setEntry s1.bindings key ⟨key, p, inst⟩ })

/-- Shape of the recursive resolver passed down to providers. -/
abbrev GetFn := Key → InjectorState → Except DIError Value × InjectorState

/-- `providers._resolve_dependencies`: walk the parameter list; an
unannotated parameter is skipped outright; an annotated one triggers
`injector.get(annotation)` first, and only afterwards does the
kind dispatch decide whether (and where) the resolved value is placed —
variadic parameters drop it. -/
def resolveDeps (getFn : GetFn) :
    List Param → InjectorState →
    Except DIError (List Value × List (String × Value)) × InjectorState
  | [], s => (Except.ok ([], []), s)
  | p :: rest, s =>
    match p.annot with
    | Option.none => resolveDeps getFn rest s
    | some t =>
      match getFn t s with
      | (Except.error e, s1) => (Except.error e, s1)
      | (Except.ok v, s1) =>
        match resolveDeps getFn rest s1 with
        | (Except.error e, s2) => (Except.error e, s2)
        | (Except.ok (args, kwargs), s2) =>
          match p.kind with
          | ParamKind.posOnly => (Except.ok (v :: args, kwargs), s2)
          | ParamKind.posOrKw => (Except.ok (v :: args, kwargs), s2)
          | ParamKind.kwOnly =>
              (Except.ok (args, (p.pname, v) :: kwargs), s2)
          | ParamKind.varPos => (Except.ok (args, kwargs), s2)
          | ParamKind.varKw => (Except.ok (args, kwargs), s2)

/-- Entering the provider callable built in `Injector.get`
(`lambda: binding.provider.get_instance(self)`): the entry is logged,
then the provider runs.  A `ClassProvider` whose payload is not a class
fails like Python would (`TypeError` on calling a non-type); a class
constructor allocates a fresh object after its dependencies resolve. -/
def callProvider (env : Env) (getFn : GetFn) (key : Key) (p : Provider)
    (s : InjectorState) : Except DIError Value × InjectorState :=
  let s0 := { s with provLog := key :: s.provLog }
  match p with
  | Provider.valueP v => (Except.ok v, s0)
  | Provider.classP cls =>
    match env.classes cls with
    | Option.none => (Except.error (DIError.pyError PyErrKind.typeErr), s0)
    | some ps =>
      match resolveDeps getFn ps s0 with
      | (Except.error e, s1) => (Except.error e, s1)
      | (Except.ok _, s1) =>
        (Except.ok (Value.obj cls s1.counter),
         { s1 with counter := s1.counter + 1 })
  | Provider.factoryP ps res =>
      match resolveDeps getFn ps s0 with
      | (Except.error e, s1) => (Except.error e, s1)
      | (Except.ok _, s1) =>
        match res with
        | FactoryResult.retValue v => (Except.ok v, s1)
        | FactoryResult.retFresh cls =>
          (Except.ok (Value.obj cls s1.counter),
           { s1 with counter := s1.counter + 1 })

/-- `scope.get_instance(binding_key, provider_callable, injector_cache)`
for the two shipped behaviours: `TransientScope` always invokes the
provider; `SingletonScope` consults the injector-wide cache and stores
the produced value on a miss. -/
def runScope (env : Env) (getFn : GetFn) (key : Key) (b : Binding)
    (s : InjectorState) : Except DIError Value × InjectorState :=
  match b.scope.kind with
  | ScopeKind.transient => callProvider env getFn key b.provider s
  | ScopeKind.singleton =>
    match getEntry s.instances key with
    | some v => (Except.ok v, s)
    | Option.none =>
      match callProvider env getFn key b.provider s with
      | (Except.error e, s1) => (Except.error e, s1)
      | (Except.ok v, s1) =>
        (Except.ok v, { s1 with instances := setEntry s1.instances key v })

/-- The `finally` block of `Injector.get`: whatever the outcome, remove
`key` from the in-flight set before returning/propagating. -/
def finallyRemove (key : Key) (r : Except DIError Value × InjectorState) :
    Except DIError Value × InjectorState :=
  (r.1, { r.2 with currentlyResolving := removeKey r.2.currentlyResolving key })

/-- `Injector.get`: cycle check, add to the in-flight set, look up the
binding (auto-binding a class key transiently), delegate to the scope,
and — success or failure — remove the key from the in-flight set
(the `finally` block) before returning. -/
def get (env : Env) : Nat → Key → InjectorState →
    Except DIError Value × InjectorState
  | 0, _, s => (Except.error DIError.fuelExhausted, s)
  | Nat.succ fuel, key, s =>
    if key ∈ s.currentlyResolving then
      (Except.error DIError.circularDependencyError, s)
    else
      let s1 := { s with currentlyResolving := key :: s.currentlyResolving }
      finallyRemove key
        (match getEntry s1.bindings key with
         | some b => runScope env (get env fuel) key b s1
         | Option.none =>
           match env.classes key with
           | some _ =>
             match bind env key (some key) Option.none Value.vnone
                 TransientScope s1 with
             | (Except.error e, s2) => (Except.error e, s2)
             | (Except.ok _, s2) =>
               match getEntry s2.bindings key with
               | some b => runScope env (get env fuel) key b s2
               | Option.none => (Except.error DIError.resolutionError, s2)
           | Option.none => (Except.error DIError.resolutionError, s1))

/-- `a` depends on `b` through the registry: `a` is bound to a class
provider whose class has exactly one constructor parameter, annotated
with `b`.  This is the shape of the spec's cycle examples
(`A` requires `A`, `A→B→A`, `A→B→C→A`). -/
def linksTo (env : Env) (bs : List (Key × Binding)) (a b : Key) : Bool :=
  match getEntry bs a with
  | some bd =>
    match bd.provider with
    | Provider.classP cls =>
      match env.classes cls with
      | some [p] => p.annot == some b
      | _ => false
    | _ => false
  | _ => false

/-- The injector's per-scope-class cache entry for `sc` (when present)
behaves like `sc`; every state reachable from `initState` satisfies
this. -/
def scopeCacheConsistent (s : InjectorState) (sc : ScopeClass) : Prop :=
  ∀ i, getEntry s.scopeInstances sc.sid = some i → i.kind = sc.kind

/-- A concrete world of classes used by the witnesses and
counterexamples below:

* key 1: class with a parameterless constructor;
* key 2: class requiring key 1;
* key 3: class requiring itself (`A` requires `A`);
* keys 4 and 5: a two-class cycle (`A→B→A`);
* key 6: class whose only parameter carries both a type marker (key 1)
  and a default value;
* key 7: class whose constructor is `(*args : 9)` — a rest-positional
  parameter annotated with the non-class key 9;
* key 8: a second class with a parameterless constructor;
* key 10: class whose only (ordinary) parameter is annotated with the
  non-class key 9;
* every other key (in particular 9) is not a class. -/
def envW : Env := ⟨fun k =>
  if k = 1 then some []
  else if k = 2 then some [⟨"a", ParamKind.posOrKw, some 1, Option.none⟩]
  else if k = 3 then some [⟨"a", ParamKind.posOrKw, some 3, Option.none⟩]
  else if k = 4 then some [⟨"a", ParamKind.posOrKw, some 5, Option.none⟩]
  else if k = 5 then some [⟨"a", ParamKind.posOrKw, some 4, Option.none⟩]
  else if k = 6 then
    some [⟨"a", ParamKind.posOrKw, some 1, some (Value.vint 30)⟩]
  else if k = 7 then some [⟨"args", ParamKind.varPos, some 9, Option.none⟩]
  else if k = 8 then some []
  else if k = 10 then
    some [⟨"x", ParamKind.posOrKw, some 9, Option.none⟩]
  else Option.none⟩

/-- Key 1 bound to itself with Singleton scope on a fresh injector. -/
def sSing : InjectorState :=
  (bind envW 1 Option.none Option.none Value.vnone SingletonScope
    initState).2

/-- State after the first successful `get(1)` on `sSing`. -/
def sSing1 : InjectorState := (get envW 3 1 sSing).2

/-- Key 1 bound to itself with Transient scope on a fresh injector. -/
def sTran : InjectorState :=
  (bind envW 1 Option.none Option.none Value.vnone TransientScope
    initState).2

/-- State after the first `get(1)` on `sTran`. -/
def sTran1 : InjectorState := (get envW 3 1 sTran).2

/-- State after the second `get(1)`. -/
def sTran2 : InjectorState := (get envW 3 1 sTran1).2

/-- A state with key 0 already in flight and even cached in the
singleton cache: a re-entrant `get(0)` must still fail. -/
def sInFlight : InjectorState :=
  ⟨[], [(0, Value.vint 5)], [0], [], 0, []⟩

/-- Keys 4 and 5 (the two-class cycle of `envW`) bound with mixed
scopes: 4 as Singleton, 5 as Transient. -/
def sCyc : InjectorState :=
  (bind envW 5 Option.none Option.none Value.vnone TransientScope
    ((bind envW 4 Option.none Option.none Value.vnone SingletonScope
      initState).2)).2

/-- A scope class whose `__init__(self, injector)` raises a
non-`TypeError` error. -/
def badScope : ScopeClass :=
  ⟨5, ScopeKind.transient, some PyErrKind.otherErr, Option.none⟩

/-- A scope class whose constructor rejects the injector argument with
`TypeError` but accepts the no-argument form. -/
def fallbackScope : ScopeClass :=
  ⟨6, ScopeKind.singleton, some PyErrKind.typeErr, Option.none⟩

/-- A scope class that cannot be constructed either way. -/
def failScope : ScopeClass :=
  ⟨7, ScopeKind.transient, some PyErrKind.typeErr,
   some PyErrKind.otherErr⟩

/-- State after one auto-binding `get(1)` on a fresh injector: the
`TransientScope` instance is cached, keys 8 and 10 are still unbound. -/
def sAuto : InjectorState := (get envW 3 1 initState).2

/-- `s'` keeps every registered binding of `s` unchanged (new keys may
have been auto-bound). -/
def bindingsPersist (s s1 : InjectorState) : Prop :=
  ∀ k b, getEntry s.bindings k = some b → getEntry s1.bindings k = some b

theorem getEntry_setEntry_self {β : Type} (l : List (Nat × β)) (k : Nat)
    (v : β) : getEntry (setEntry l k v) k = some v := by
  induction l with
  | nil => simp [setEntry, getEntry]
  | cons hd tl ih =>
    obtain ⟨k1, v1⟩ := hd
    by_cases h : k1 = k
    · simp [setEntry, h, getEntry]
    · simp [setEntry, h, getEntry, ih]

theorem getEntry_setEntry_ne {β : Type} (l : List (Nat × β)) (k k2 : Nat)
    (v : β) (h : k ≠ k2) : getEntry (setEntry l k v) k2 = getEntry l k2 := by
  induction l with
  | nil => simp [setEntry, getEntry, h]
  | cons hd tl ih =>
    obtain ⟨k1, v1⟩ := hd
    by_cases h1 : k1 = k
    · subst h1; simp [setEntry, getEntry, h]
    · simp [setEntry, h1, getEntry, ih]

theorem removeKey_cons_self (key : Key) (l : List Key) :
    removeKey (key :: l) key = l := by
  simp [removeKey]

theorem getScopeInstance_frame (sc : ScopeClass) (s : InjectorState) :
    ((getScopeInstance sc s).2).bindings = s.bindings ∧
    ((getScopeInstance sc s).2).instances = s.instances ∧
    ((getScopeInstance sc s).2).currentlyResolving = s.currentlyResolving ∧
    ((getScopeInstance sc s).2).provLog = s.provLog ∧
    s.counter ≤ ((getScopeInstance sc s).2).counter := by
  unfold getScopeInstance
  repeat' split
  all_goals simp

theorem bind_frame (env : Env) (key : Key) (tc : Option Key)
    (tf : Option (List Param × FactoryResult)) (tv : Value)
    (sc : ScopeClass) (s : InjectorState) :
    ((bind env key tc tf tv sc s).2).instances = s.instances ∧
    ((bind env key tc tf tv sc s).2).currentlyResolving
        = s.currentlyResolving ∧
    ((bind env key tc tf tv sc s).2).provLog = s.provLog ∧
    s.counter ≤ ((bind env key tc tf tv sc s).2).counter := by
  unfold bind
  repeat' split
  all_goals simp
  all_goals
    rename_i heq
    have h := getScopeInstance_frame sc s
    rw [heq] at h
    simp_all

theorem bind_bindings_persist (env : Env) (key : Key) (tc : Option Key)
    (tf : Option (List Param × FactoryResult)) (tv : Value)
    (sc : ScopeClass) (s : InjectorState) (k : Key) (b : Binding)
    (hk : k ≠ key) (h : getEntry s.bindings k = some b) :
    getEntry ((bind env key tc tf tv sc s).2).bindings k = some b := by
  unfold bind
  repeat' split
  all_goals simp_all
  all_goals
    rename_i heq
    have hf := (getScopeInstance_frame sc s).1
    rw [heq] at hf
    simp only [] at hf
    first
      | (rw [hf]; exact h)
      | (rw [hf, getEntry_setEntry_ne _ _ _ _ (fun hkk => hk hkk.symm)]
         exact h)

theorem resolveDeps_resolving (getFn : GetFn)
    (hg : ∀ k s, ((getFn k s).2).currentlyResolving = s.currentlyResolving) :
    ∀ (ps : List Param) (s : InjectorState),
      ((resolveDeps getFn ps s).2).currentlyResolving
        = s.currentlyResolving := by
  intro ps
  induction ps with
  | nil => intro s; simp [resolveDeps]
  | cons p rest ih =>
    intro s
    simp only [resolveDeps]
    split
    · exact ih s
    · rename_i t hann
      split
      · rename_i e s1 heq
        have := hg t s
        rw [heq] at this
        exact this
      · rename_i v s1 heq
        have h1 := hg t s
        rw [heq] at h1
        split
        · rename_i e s2 heq2
          have h2 := ih s1
          rw [heq2] at h2
          simp only [] at h1 h2
          rw [h2, h1]
        · rename_i args kwargs s2 heq2
          have h2 := ih s1
          rw [heq2] at h2
          simp only [] at h1 h2
          split
          all_goals simp only []
          all_goals rw [h2, h1]

theorem callProvider_resolving (env : Env) (getFn : GetFn)
    (hg : ∀ k s, ((getFn k s).2).currentlyResolving = s.currentlyResolving)
    (key : Key) (p : Provider) (s : InjectorState) :
    ((callProvider env getFn key p s).2).currentlyResolving
      = s.currentlyResolving := by
  cases p with
  | valueP v => rfl
  | classP cls =>
    simp only [callProvider]
    cases hc : env.classes cls with
    | none => rfl
    | some ps =>
      have h1 := resolveDeps_resolving getFn hg ps
        { s with provLog := key :: s.provLog }
      rcases hr : resolveDeps getFn ps { s with provLog := key :: s.provLog }
        with ⟨r, s1⟩
      rw [hr] at h1
      cases r <;> simp_all
  | factoryP ps res =>
    simp only [callProvider]
    have h1 := resolveDeps_resolving getFn hg ps
      { s with provLog := key :: s.provLog }
    rcases hr : resolveDeps getFn ps { s with provLog := key :: s.provLog }
      with ⟨r, s1⟩
    rw [hr] at h1
    cases r with
    | error e => simp_all
    | ok av => cases res <;> simp_all

theorem runScope_resolving (env : Env) (getFn : GetFn)
    (hg : ∀ k s, ((getFn k s).2).currentlyResolving = s.currentlyResolving)
    (key : Key) (b : Binding) (s : InjectorState) :
    ((runScope env getFn key b s).2).currentlyResolving
      = s.currentlyResolving := by
  unfold runScope
  cases hk : b.scope.kind with
  | transient =>
    simpa using callProvider_resolving env getFn hg key b.provider s
  | singleton =>
    cases hv : getEntry s.instances key with
    | some v => simp
    | none =>
      have h1 := callProvider_resolving env getFn hg key b.provider s
      rcases hcp : callProvider env getFn key b.provider s with ⟨r, s1⟩
      rw [hcp] at h1
      cases r <;> simp_all

theorem get_resolving (env : Env) :
    ∀ (fuel : Nat) (key : Key) (s : InjectorState),
      ((get env fuel key s).2).currentlyResolving
        = s.currentlyResolving := by
  intro fuel
  induction fuel with
  | zero => intro key s; simp [get]
  | succ n ih =>
    intro key s
    simp only [get]
    split
    · rfl
    · rename_i hmem
      set s1 : InjectorState :=
        { s with currentlyResolving := key :: s.currentlyResolving } with hs1
      have hbody :
          ∀ r : Except DIError Value × InjectorState,
            r.2.currentlyResolving = s1.currentlyResolving →
            ((finallyRemove key r).2).currentlyResolving
              = s.currentlyResolving := by
        intro r hr
        simp only [finallyRemove, hr, hs1]
        exact removeKey_cons_self key s.currentlyResolving
      apply hbody
      split
      · rename_i b heq
        exact runScope_resolving env (get env n) ih key b s1
      · split
        · split
          · rename_i heq
            have hf := (bind_frame env key (some key) Option.none
              Value.vnone TransientScope s1).2.1
            rw [heq] at hf
            exact hf
          · rename_i s2 heq
            have hf := (bind_frame env key (some key) Option.none
              Value.vnone TransientScope s1).2.1
            rw [heq] at hf
            simp only [] at hf
            split
            · rename_i b heq2
              rw [runScope_resolving env (get env n) ih key b s2]
              exact hf
            · exact hf
        · rfl

theorem resolveDeps_counter (getFn : GetFn)
    (hg : ∀ k s, s.counter ≤ ((getFn k s).2).counter) :
    ∀ (ps : List Param) (s : InjectorState),
      s.counter ≤ ((resolveDeps getFn ps s).2).counter := by
  intro ps
  induction ps with
  | nil => intro s; simp [resolveDeps]
  | cons p rest ih =>
    intro s
    simp only [resolveDeps]
    split
    · exact ih s
    · rename_i t hann
      split
      · rename_i e s1 heq
        have h1 := hg t s
        rw [heq] at h1
        simpa using h1
      · rename_i v s1 heq
        have h1 := hg t s
        rw [heq] at h1
        simp only [] at h1
        split
        · rename_i e s2 heq2
          have h2 := ih s1
          rw [heq2] at h2
          simp only [] at h2
          simp only []
          omega
        · rename_i args kwargs s2 heq2
          have h2 := ih s1
          rw [heq2] at h2
          simp only [] at h2
          split
          all_goals simp only []
          all_goals omega

theorem callProvider_counter (env : Env) (getFn : GetFn)
    (hg : ∀ k s, s.counter ≤ ((getFn k s).2).counter)
    (key : Key) (p : Provider) (s : InjectorState) :
    s.counter ≤ ((callProvider env getFn key p s).2).counter := by
  cases p with
  | valueP v => simp [callProvider]
  | classP cls =>
    simp only [callProvider]
    cases hc : env.classes cls with
    | none => simp
    | some ps =>
      have h1 := resolveDeps_counter getFn hg ps
        { s with provLog := key :: s.provLog }
      rcases hr : resolveDeps getFn ps { s with provLog := key :: s.provLog }
        with ⟨r, s1⟩
      rw [hr] at h1
      simp only [] at h1
      cases r <;> simp_all
      all_goals omega
  | factoryP ps res =>
    simp only [callProvider]
    have h1 := resolveDeps_counter getFn hg ps
      { s with provLog := key :: s.provLog }
    rcases hr : resolveDeps getFn ps { s with provLog := key :: s.provLog }
      with ⟨r, s1⟩
    rw [hr] at h1
    simp only [] at h1
    cases r with
    | error e => simp_all
    | ok av =>
      cases res <;> simp_all
      all_goals omega

theorem runScope_counter (env : Env) (getFn : GetFn)
    (hg : ∀ k s, s.counter ≤ ((getFn k s).2).counter)
    (key : Key) (b : Binding) (s : InjectorState) :
    s.counter ≤ ((runScope env getFn key b s).2).counter := by
  unfold runScope
  cases hk : b.scope.kind with
  | transient => simpa using callProvider_counter env getFn hg key b.provider s
  | singleton =>
    cases hv : getEntry s.instances key with
    | some v => simp
    | none =>
      have h1 := callProvider_counter env getFn hg key b.provider s
      rcases hcp : callProvider env getFn key b.provider s with ⟨r, s1⟩
      rw [hcp] at h1
      cases r <;> simp_all

theorem get_counter (env : Env) :
    ∀ (fuel : Nat) (key : Key) (s : InjectorState),
      s.counter ≤ ((get env fuel key s).2).counter := by
  intro fuel
  induction fuel with
  | zero => intro key s; simp [get]
  | succ n ih =>
    intro key s
    simp only [get]
    split
    · simp
    · rename_i hmem
      set s1 : InjectorState :=
        { s with currentlyResolving := key :: s.currentlyResolving } with hs1
      have hs1c : s.counter = s1.counter := rfl
      rw [hs1c]
      have hbody :
          ∀ r : Except DIError Value × InjectorState,
            s1.counter ≤ r.2.counter →
            s1.counter ≤ ((finallyRemove key r).2).counter := by
        intro r hr
        simpa [finallyRemove] using hr
      apply hbody
      split
      · rename_i b heq
        exact runScope_counter env (get env n) ih key b s1
      · split
        · split
          · rename_i heq
            have hf := (bind_frame env key (some key) Option.none
              Value.vnone TransientScope s1).2.2.2
            rw [heq] at hf
            exact hf
          · rename_i s2 heq
            have hf := (bind_frame env key (some key) Option.none
              Value.vnone TransientScope s1).2.2.2
            rw [heq] at hf
            simp only [] at hf
            split
            · rename_i b heq2
              exact le_trans hf (runScope_counter env (get env n) ih key b s2)
            · exact hf
        · simp

theorem resolveDeps_bindings (getFn : GetFn)
    (hg : ∀ k s, bindingsPersist s ((getFn k s).2)) :
    ∀ (ps : List Param) (s : InjectorState),
      bindingsPersist s ((resolveDeps getFn ps s).2) := by
  intro ps
  induction ps with
  | nil => intro s k b hb; simpa [resolveDeps] using hb
  | cons p rest ih =>
    intro s
    simp only [resolveDeps]
    split
    · exact ih s
    · rename_i t hann
      split
      · rename_i e s1 heq
        have h1 := hg t s
        rw [heq] at h1
        exact h1
      · rename_i v s1 heq
        have h1 := hg t s
        rw [heq] at h1
        simp only [] at h1
        split
        · rename_i e s2 heq2
          have h2 := ih s1
          rw [heq2] at h2
          simp only [] at h2
          exact fun k b hb => h2 k b (h1 k b hb)
        · rename_i args kwargs s2 heq2
          have h2 := ih s1
          rw [heq2] at h2
          simp only [] at h2
          have h12 : bindingsPersist s s2 := fun k b hb => h2 k b (h1 k b hb)
          split
          all_goals exact h12

theorem callProvider_bindings (env : Env) (getFn : GetFn)
    (hg : ∀ k s, bindingsPersist s ((getFn k s).2))
    (key : Key) (p : Provider) (s : InjectorState) :
    bindingsPersist s ((callProvider env getFn key p s).2) := by
  cases p with
  | valueP v => intro k b hb; simpa [callProvider] using hb
  | classP cls =>
    simp only [callProvider]
    cases hc : env.classes cls with
    | none => intro k b hb; simpa using hb
    | some ps =>
      have h1 := resolveDeps_bindings getFn hg ps
        { s with provLog := key :: s.provLog }
      dsimp only
      rcases hr : resolveDeps getFn ps { s with provLog := key :: s.provLog }
        with ⟨r, s1⟩
      rw [hr] at h1
      cases r with
      | error e => exact h1
      | ok av => exact h1
  | factoryP ps res =>
    simp only [callProvider]
    have h1 := resolveDeps_bindings getFn hg ps
      { s with provLog := key :: s.provLog }
    rcases hr : resolveDeps getFn ps { s with provLog := key :: s.provLog }
      with ⟨r, s1⟩
    rw [hr] at h1
    cases r with
    | error e => exact h1
    | ok av => cases res <;> exact h1

theorem runScope_bindings (env : Env) (getFn : GetFn)
    (hg : ∀ k s, bindingsPersist s ((getFn k s).2))
    (key : Key) (b : Binding) (s : InjectorState) :
    bindingsPersist s ((runScope env getFn key b s).2) := by
  unfold runScope
  cases hk : b.scope.kind with
  | transient =>
    have := callProvider_bindings env getFn hg key b.provider s
    simpa using this
  | singleton =>
    cases hv : getEntry s.instances key with
    | some v => intro k bb hb; simpa using hb
    | none =>
      have h1 := callProvider_bindings env getFn hg key b.provider s
      rcases hcp : callProvider env getFn key b.provider s with ⟨r, s1⟩
      rw [hcp] at h1
      cases r with
      | error e => exact h1
      | ok v => exact h1

theorem get_bindings (env : Env) :
    ∀ (fuel : Nat) (key : Key) (s : InjectorState),
      bindingsPersist s ((get env fuel key s).2) := by
  intro fuel
  induction fuel with
  | zero => intro key s k b hb; simpa [get] using hb
  | succ n ih =>
    intro key s
    simp only [get]
    split
    · intro k b hb; exact hb
    · rename_i hmem
      set s1 : InjectorState :=
        { s with currentlyResolving := key :: s.currentlyResolving } with hs1
      have hs1b : s.bindings = s1.bindings := rfl
      have hbody :
          ∀ r : Except DIError Value × InjectorState,
            bindingsPersist s1 r.2 →
            bindingsPersist s ((finallyRemove key r).2) := by
        intro r hr k b hb
        have : getEntry s1.bindings k = some b := by rw [← hs1b]; exact hb
        simpa [finallyRemove] using hr k b this
      apply hbody
      split
      · rename_i b heq
        exact runScope_bindings env (get env n) ih key b s1
      · rename_i hlook
        split
        · split
          · rename_i e s2 heq
            intro k b hb
            have := bind_bindings_persist env key (some key) Option.none
              Value.vnone TransientScope s1 k b
              (fun hkk => by
                rw [hkk] at hb
                rw [← hs1b] at hlook
                rw [hlook] at hb
                exact Option.noConfusion hb) hb
            rw [heq] at this
            exact this
          · rename_i s2 heq
            intro k b hb
            have hper := bind_bindings_persist env key (some key) Option.none
              Value.vnone TransientScope s1 k b
              (fun hkk => by
                rw [hkk] at hb
                rw [← hs1b] at hlook
                rw [hlook] at hb
                exact Option.noConfusion hb) hb
            rw [heq] at hper
            simp only [] at hper
            split
            · rename_i b2 heq2
              exact runScope_bindings env (get env n) ih key b2 s2 k b hper
            · exact hper
        · intro k b hb; exact hb

theorem get_inflight (env : Env) (fuel : Nat) (key : Key)
    (s : InjectorState) (hmem : key ∈ s.currentlyResolving) :
    get env (fuel + 1) key s
      = (Except.error DIError.circularDependencyError, s) := by
  simp [get, hmem]

theorem get_success_not_inflight (env : Env) (fuel : Nat) (key : Key)
    (s s1 : InjectorState) (v : Value)
    (h : get env (fuel + 1) key s = (Except.ok v, s1)) :
    key ∉ s.currentlyResolving := by
  intro hmem
  rw [get_inflight env fuel key s hmem] at h
  exact Except.noConfusion (congrArg Prod.fst h)

theorem get_step_bound (env : Env) (fuel : Nat) (key : Key)
    (s : InjectorState) (bd : Binding)
    (hmem : key ∉ s.currentlyResolving)
    (hb : getEntry s.bindings key = some bd) :
    get env (fuel + 1) key s
      = finallyRemove key
          (runScope env (get env fuel) key bd
            { s with currentlyResolving := key :: s.currentlyResolving }) := by
  simp only [get]
  rw [if_neg hmem]
  have hb1 : getEntry
      ({ s with currentlyResolving :=
          key :: s.currentlyResolving } : InjectorState).bindings key
      = some bd := hb
  rw [hb1]

theorem get_step_unbound_nonclass (env : Env) (fuel : Nat) (key : Key)
    (s : InjectorState)
    (hmem : key ∉ s.currentlyResolving)
    (hb : getEntry s.bindings key = Option.none)
    (hc : env.classes key = Option.none) :
    get env (fuel + 1) key s = (Except.error DIError.resolutionError, s) := by
  simp only [get]
  rw [if_neg hmem]
  have hb1 : getEntry
      ({ s with currentlyResolving :=
          key :: s.currentlyResolving } : InjectorState).bindings key
      = Option.none := hb
  rw [hb1, hc]
  simp only [finallyRemove]
  rw [removeKey_cons_self]

theorem getScopeInstance_transient (s : InjectorState) :
    getScopeInstance TransientScope s
      = match getEntry s.scopeInstances 0 with
        | some inst => (Except.ok inst, s)
        | Option.none =>
          (Except.ok (ScopeInst.mk s.counter 0 ScopeKind.transient true),
           { s with counter := s.counter + 1,
                    scopeInstances := setEntry s.scopeInstances 0
                      (ScopeInst.mk s.counter 0 ScopeKind.transient
                        true) }) := rfl

theorem bind_toClass_eq (env : Env) (key c : Key) (sc : ScopeClass)
    (s : InjectorState) :
    bind env key (some c) Option.none Value.vnone sc s
      = match getScopeInstance sc s with
        | (Except.error e, s1) => (Except.error e, s1)
        | (Except.ok inst, s1) =>
          (Except.ok (),
           { s1 with
               bindings :=
                 setEntry s1.bindings key
                   (Binding.mk key (Provider.classP c) inst) }) := rfl

theorem get_step_unbound_class (env : Env) (fuel : Nat) (key : Key)
    (s : InjectorState) (ps : List Param) (inst : ScopeInst)
    (hmem : key ∉ s.currentlyResolving)
    (hb : getEntry s.bindings key = Option.none)
    (hc : env.classes key = some ps)
    (hsc : getEntry s.scopeInstances 0 = some inst) :
    get env (fuel + 1) key s
      = finallyRemove key
          (runScope env (get env fuel) key ⟨key, Provider.classP key, inst⟩
            { s with
                bindings := setEntry s.bindings key
                  ⟨key, Provider.classP key, inst⟩,
                currentlyResolving := key :: s.currentlyResolving }) := by
  simp only [get]
  rw [if_neg hmem]
  have hb1 : getEntry
      ({ s with currentlyResolving :=
          key :: s.currentlyResolving } : InjectorState).bindings key
      = Option.none := hb
  have hsc1 : getEntry
      ({ s with currentlyResolving :=
          key :: s.currentlyResolving } : InjectorState).scopeInstances 0
      = some inst := hsc
  rw [hb1, hc, bind_toClass_eq, getScopeInstance_transient, hsc1]
  dsimp only
  rw [getEntry_setEntry_self]

theorem get_singleton_cache_hit (env : Env) (fuel : Nat) (key : Key)
    (s : InjectorState) (bd : Binding) (v : Value)
    (hmem : key ∉ s.currentlyResolving)
    (hb : getEntry s.bindings key = some bd)
    (hk : bd.scope.kind = ScopeKind.singleton)
    (hv : getEntry s.instances key = some v) :
    get env (fuel + 1) key s = (Except.ok v, s) := by
  rw [get_step_bound env fuel key s bd hmem hb]
  unfold runScope
  rw [hk]
  have hv1 : getEntry
      ({ s with currentlyResolving :=
          key :: s.currentlyResolving } : InjectorState).instances key
      = some v := hv
  rw [hv1]
  simp only [finallyRemove]
  rw [removeKey_cons_self]

theorem get_singleton_success_cached (env : Env) (fuel : Nat) (key : Key)
    (s s1 : InjectorState) (bd : Binding) (v : Value)
    (hb : getEntry s.bindings key = some bd)
    (hk : bd.scope.kind = ScopeKind.singleton)
    (h : get env (fuel + 1) key s = (Except.ok v, s1)) :
    getEntry s1.instances key = some v := by
  have hmem := get_success_not_inflight env fuel key s s1 v h
  rw [get_step_bound env fuel key s bd hmem hb] at h
  unfold runScope at h
  rw [hk] at h
  split at h
  · rename_i hkk; exact ScopeKind.noConfusion hkk
  · split at h
    · rename_i w hv
      simp only [finallyRemove, Prod.mk.injEq, Except.ok.injEq] at h
      obtain ⟨hfst, hsnd⟩ := h
      subst hfst
      rw [← hsnd]
      exact hv
    · rename_i hv
      split at h
      · rename_i e s2 hcp
        simp [finallyRemove] at h
      · rename_i w s2 hcp
        simp only [finallyRemove, Prod.mk.injEq, Except.ok.injEq] at h
        obtain ⟨hfst, hsnd⟩ := h
        subst hfst
        rw [← hsnd]
        exact getEntry_setEntry_self _ _ _

theorem get_transient_classP_shape (env : Env) (fuel : Nat) (key : Key)
    (s s1 : InjectorState) (bd : Binding) (cls : Key) (v : Value)
    (hb : getEntry s.bindings key = some bd)
    (hk : bd.scope.kind = ScopeKind.transient)
    (hp : bd.provider = Provider.classP cls)
    (h : get env (fuel + 1) key s = (Except.ok v, s1)) :
    ∃ n, v = Value.obj cls n ∧ s.counter ≤ n ∧ n < s1.counter := by
  have hmem := get_success_not_inflight env fuel key s s1 v h
  rw [get_step_bound env fuel key s bd hmem hb] at h
  unfold runScope at h
  rw [hk] at h
  split at h
  · rw [hp] at h
    simp only [callProvider] at h
    split at h
    · rename_i hc
      simp [finallyRemove] at h
    · rename_i ps hc
      split at h
      · rename_i e s2 hr
        simp [finallyRemove] at h
      · rename_i aw s2 hr
        simp only [finallyRemove, Prod.mk.injEq, Except.ok.injEq] at h
        obtain ⟨hfst, hsnd⟩ := h
        refine ⟨s2.counter, hfst.symm, ?_, ?_⟩
        · have hmono := resolveDeps_counter (get env fuel)
            (fun k st => get_counter env fuel k st) ps
            ({ s with currentlyResolving := key :: s.currentlyResolving,
                      provLog := key :: s.provLog })
          rw [hr] at hmono
          simpa using hmono
        · rw [← hsnd]
          simp
  · rename_i hkk; exact ScopeKind.noConfusion hkk

theorem finallyRemove_fst (key : Key)
    (r : Except DIError Value × InjectorState) :
    (finallyRemove key r).1 = r.1 := rfl

theorem callProvider_single_dep_error (env : Env) (getFn : GetFn)
    (a cls : Key) (p : Param) (next : Key) (s : InjectorState)
    (e : DIError)
    (hcls : env.classes cls = some [p])
    (hann : p.annot = some next)
    (hget : (getFn next { s with provLog := a :: s.provLog }).1
      = Except.error e) :
    (callProvider env getFn a (Provider.classP cls) s).1
      = Except.error e := by
  simp only [callProvider]
  rw [hcls]
  simp only [resolveDeps]
  rw [hann]
  dsimp only
  rcases hg : getFn next { s with provLog := a :: s.provLog } with ⟨r, st⟩
  rw [hg] at hget
  cases r with
  | error e2 => simpa using hget
  | ok v => exact absurd hget (by simp)

theorem runScope_error_prop (env : Env) (getFn : GetFn) (a : Key)
    (bd : Binding) (s : InjectorState) (e : DIError)
    (hinst : getEntry s.instances a = Option.none)
    (hcp : (callProvider env getFn a bd.provider s).1 = Except.error e) :
    (runScope env getFn a bd s).1 = Except.error e := by
  unfold runScope
  cases hk : bd.scope.kind with
  | transient => simpa using hcp
  | singleton =>
    dsimp only
    rw [hinst]
    dsimp only
    rcases hc : callProvider env getFn a bd.provider s with ⟨r, st⟩
    rw [hc] at hcp
    cases r with
    | error e2 => simpa using hcp
    | ok v => exact absurd hcp (by simp)

theorem step_propagates (env : Env) (n : Nat) (a next : Key)
    (s : InjectorState)
    (hmem : a ∉ s.currentlyResolving)
    (hlink : linksTo env s.bindings a next = true)
    (hinst : getEntry s.instances a = Option.none)
    (hinner : (get env n next
        { s with currentlyResolving := a :: s.currentlyResolving,
                 provLog := a :: s.provLog }).1
      = Except.error DIError.circularDependencyError) :
    (get env (n + 1) a s).1
      = Except.error DIError.circularDependencyError := by
  unfold linksTo at hlink
  split at hlink
  · rename_i bd hbd
    split at hlink
    · rename_i cls hprov
      split at hlink
      · rename_i p hcls
        rw [beq_iff_eq] at hlink
        rw [get_step_bound env n a s bd hmem hbd, finallyRemove_fst]
        refine runScope_error_prop env (get env n) a bd _ _ ?_ ?_
        · exact hinst
        · rw [hprov]
          exact callProvider_single_dep_error env (get env n) a cls p next
            _ _ hcls hlink hinner
      · exact absurd hlink (by simp)
    · exact absurd hlink (by simp)
  · exact absurd hlink (by simp)

theorem chain_to_inflight (env : Env) (target : Key) :
    ∀ (l : List Key) (fuel : Nat) (s : InjectorState),
      l.length + 1 ≤ fuel →
      target ∈ s.currentlyResolving →
      l.Nodup →
      (∀ k ∈ l, k ∉ s.currentlyResolving) →
      (∀ k ∈ l, getEntry s.instances k = Option.none) →
      List.Chain' (fun x y => linksTo env s.bindings x y = true)
        (l ++ [target]) →
      (get env fuel (l.headD target) s).1
        = Except.error DIError.circularDependencyError := by
  intro l
  induction l with
  | nil =>
    intro fuel s hfuel hmem _ _ _ _
    obtain ⟨m, rfl⟩ : ∃ m, fuel = m + 1 := ⟨fuel - 1, by omega⟩
    rw [show ([] : List Key).headD target = target from rfl]
    rw [get_inflight env m target s hmem]
  | cons a l2 ih =>
    intro fuel s hfuel hmem hnodup hnotin hinst hchain
    obtain ⟨m, rfl⟩ : ∃ m, fuel = m + 1 := ⟨fuel - 1, by omega⟩
    rw [show (a :: l2).headD target = a from rfl]
    have hanotl2 : a ∉ l2 := (List.nodup_cons.mp hnodup).1
    have hnodup2 : l2.Nodup := (List.nodup_cons.mp hnodup).2
    have hchainc : List.Chain'
        (fun x y => linksTo env s.bindings x y = true)
        (a :: (l2 ++ [target])) := hchain
    have hlink : linksTo env s.bindings a ((l2 ++ [target]).headD target)
        = true := by
      cases l2 with
      | nil => exact (List.chain'_cons.mp hchainc).1
      | cons b l3 => exact (List.chain'_cons.mp hchainc).1
    have hchain2 : List.Chain'
        (fun x y => linksTo env s.bindings x y = true)
        (l2 ++ [target]) := hchainc.tail
    have hheads : (l2 ++ [target]).headD target = l2.headD target := by
      cases l2 <;> rfl
    apply step_propagates env m a (l2.headD target) s
      (hnotin a (List.mem_cons_self a l2)) (hheads ▸ hlink)
      (hinst a (List.mem_cons_self a l2))
    apply ih m
      ({ s with currentlyResolving := a :: s.currentlyResolving,
                provLog := a :: s.provLog })
    · simp only [List.length_cons] at hfuel
      omega
    · exact List.mem_cons_of_mem a hmem
    · exact hnodup2
    · intro k hk
      simp only [List.mem_cons]
      push_neg
      exact ⟨fun hka => hanotl2 (hka ▸ hk),
        hnotin k (List.mem_cons_of_mem a hk)⟩
    · intro k hk
      exact hinst k (List.mem_cons_of_mem a hk)
    · exact hchain2

/-- C1: a re-entrant `get(k)` — `k` already in the in-flight resolution
set — always raises `CircularDependencyError` with the state untouched,
before any cache is consulted (in particular even when `k` has a cached
singleton value); and resolving the head of any dependency cycle of
length ≥ 1 (each key bound to a class provider whose class requires the
next key, under any combination of scope instances on the bindings)
raises `CircularDependencyError`, provided none of the cycle's keys is
already in flight or singleton-cached. -/
theorem circular_dependency_always_raised :
    (∀ (env : Env) (fuel : Nat) (key : Key) (s : InjectorState),
       key ∈ s.currentlyResolving →
       get env (fuel + 1) key s
         = (Except.error DIError.circularDependencyError, s))
    ∧ (∀ (env : Env) (fuel : Nat) (k0 : Key) (rest : List Key)
         (s : InjectorState),
       (k0 :: rest).Nodup →
       (∀ k ∈ k0 :: rest, k ∉ s.currentlyResolving) →
       (∀ k ∈ k0 :: rest, getEntry s.instances k = Option.none) →
       List.Chain' (fun x y => linksTo env s.bindings x y = true)
         ((k0 :: rest) ++ [k0]) →
       rest.length + 2 ≤ fuel →
       (get env fuel k0 s).1
         = Except.error DIError.circularDependencyError) := by
  constructor
  · intro env fuel key s hmem
    exact get_inflight env fuel key s hmem
  · intro env fuel k0 rest s hnodup hnotin hinst hchain hfuel
    obtain ⟨m, rfl⟩ : ∃ m, fuel = m + 1 := ⟨fuel - 1, by omega⟩
    have hanotl2 : k0 ∉ rest := (List.nodup_cons.mp hnodup).1
    have hnodup2 : rest.Nodup := (List.nodup_cons.mp hnodup).2
    have hchainc : List.Chain'
        (fun x y => linksTo env s.bindings x y = true)
        (k0 :: (rest ++ [k0])) := hchain
    have hlink : linksTo env s.bindings k0 ((rest ++ [k0]).headD k0)
        = true := by
      cases rest with
      | nil => exact (List.chain'_cons.mp hchainc).1
      | cons b l3 => exact (List.chain'_cons.mp hchainc).1
    have hchain2 : List.Chain'
        (fun x y => linksTo env s.bindings x y = true)
        (rest ++ [k0]) := hchainc.tail
    have hheads : (rest ++ [k0]).headD k0 = rest.headD k0 := by
      cases rest <;> rfl
    apply step_propagates env m k0 (rest.headD k0) s
      (hnotin k0 (List.mem_cons_self k0 rest)) (hheads ▸ hlink)
      (hinst k0 (List.mem_cons_self k0 rest))
    apply chain_to_inflight env k0 rest m
      ({ s with currentlyResolving := k0 :: s.currentlyResolving,
                provLog := k0 :: s.provLog })
    · omega
    · exact List.mem_cons_self k0 s.currentlyResolving
    · exact hnodup2
    · intro k hk
      simp only [List.mem_cons]
      push_neg
      exact ⟨fun hka => hanotl2 (hka ▸ hk),
        hnotin k (List.mem_cons_of_mem k0 hk)⟩
    · intro k hk
      exact hinst k (List.mem_cons_of_mem k0 hk)
    · exact hchain2

/-- Witness for C1: a re-entrant `get(0)` fails with the state
untouched even though key 0 has a cached singleton value; and the
two-class cycle 4 → 5 → 4 of `envW`, bound with Singleton scope on 4
and Transient scope on 5, raises `CircularDependencyError`. -/
theorem circular_dependency_always_raised_witness :
    get envW 4 0 sInFlight
      = (Except.error DIError.circularDependencyError, sInFlight)
    ∧ (get envW 4 4 sCyc).1
      = Except.error DIError.circularDependencyError := by
  constructor
  · exact circular_dependency_always_raised.1 envW 3 0 sInFlight (by decide)
  · refine circular_dependency_always_raised.2 envW 4 4 [5] sCyc
      (by decide) (by decide) (by decide) ?_ (by decide)
    refine List.chain'_cons.mpr ⟨by decide, ?_⟩
    refine List.chain'_cons.mpr ⟨by decide, ?_⟩
    exact List.chain'_singleton 4

/-- C2: whenever `get(k)` terminates — whether it returns a value or
raises any error (`CircularDependencyError`, `ResolutionError`, or a
propagated provider error) — the in-flight resolution set is exactly
what it was before the call (`finally` guarantees removal of every
entry the call added), so a key not in flight before a call is not in
flight after it, and every key implicated in a failed resolution is
resolvable again by a subsequent, independent `get`. -/
theorem resolution_set_always_drained :
    ∀ (env : Env) (fuel : Nat) (key : Key) (s : InjectorState),
      ((get env fuel key s).2).currentlyResolving = s.currentlyResolving ∧
      (key ∉ s.currentlyResolving →
        key ∉ ((get env fuel key s).2).currentlyResolving) := by
  intro env fuel key s
  refine ⟨get_resolving env fuel key s, ?_⟩
  intro hmem
  rw [get_resolving env fuel key s]
  exact hmem

/-- Witness for C2 at a concrete input: key 3 (a self-cycle, so the
`get` fails) is not in flight after the failed call on a fresh
injector. -/
theorem resolution_set_always_drained_witness :
    3 ∉ ((get envW 5 3 initState).2).currentlyResolving :=
  (resolution_set_always_drained envW 5 3 initState).2 (by decide)

/-- C3: for a key bound with Singleton scope, a second `get` after a
successful one returns the identical instance and leaves the state
(including the provider-execution log) completely unchanged — the
provider callable is not executed again, so it runs at most once; for a
key bound with Transient scope to a class provider, two sequential
successful `get` calls return objects with distinct allocation
identities. -/
theorem singleton_and_transient_scope_semantics :
    (∀ (env : Env) (fuel fuel2 : Nat) (key : Key) (s s1 : InjectorState)
       (bd : Binding) (v : Value),
       getEntry s.bindings key = some bd →
       bd.scope.kind = ScopeKind.singleton →
       get env (fuel + 1) key s = (Except.ok v, s1) →
       get env (fuel2 + 1) key s1 = (Except.ok v, s1))
    ∧ (∀ (env : Env) (fuel fuel2 : Nat) (key : Key)
       (s s1 s2 : InjectorState) (bd : Binding) (cls : Key)
       (v1 v2 : Value),
       getEntry s.bindings key = some bd →
       bd.scope.kind = ScopeKind.transient →
       bd.provider = Provider.classP cls →
       get env (fuel + 1) key s = (Except.ok v1, s1) →
       get env (fuel2 + 1) key s1 = (Except.ok v2, s2) →
       v1 ≠ v2) := by
  constructor
  · intro env fuel fuel2 key s s1 bd v hb hk h
    have hmem := get_success_not_inflight env fuel key s s1 v h
    have hres : s1.currentlyResolving = s.currentlyResolving := by
      have hx := get_resolving env (fuel + 1) key s
      rw [h] at hx
      exact hx
    have hmem1 : key ∉ s1.currentlyResolving := by
      rw [hres]; exact hmem
    have hb1 : getEntry s1.bindings key = some bd := by
      have hbp := get_bindings env (fuel + 1) key s key bd hb
      rw [h] at hbp
      exact hbp
    have hcache :=
      get_singleton_success_cached env fuel key s s1 bd v hb hk h
    exact get_singleton_cache_hit env fuel2 key s1 bd v hmem1 hb1 hk hcache
  · intro env fuel fuel2 key s s1 s2 bd cls v1 v2 hb hk hp h1 h2
    obtain ⟨n1, hv1, hge1, hn1⟩ :=
      get_transient_classP_shape env fuel key s s1 bd cls v1 hb hk hp h1
    have hb1 : getEntry s1.bindings key = some bd := by
      have hbp := get_bindings env (fuel + 1) key s key bd hb
      rw [h1] at hbp
      exact hbp
    obtain ⟨n2, hv2, hge2, hn2⟩ :=
      get_transient_classP_shape env fuel2 key s1 s2 bd cls v2 hb1 hk hp h2
    rw [hv1, hv2]
    intro hcontra
    injection hcontra with hcls hn
    omega

/-- Witness for C3: on a fresh injector, key 1 self-bound as Singleton
yields the same object (and unchanged state) on the second `get`, while
the same binding as Transient yields objects with ids 1 and 2. -/
theorem singleton_and_transient_scope_semantics_witness :
    get envW 3 1 sSing1 = (Except.ok (Value.obj 1 1), sSing1)
    ∧ get envW 3 1 sTran = (Except.ok (Value.obj 1 1), sTran1)
    ∧ get envW 3 1 sTran1 = (Except.ok (Value.obj 1 2), sTran2)
    ∧ Value.obj 1 1 ≠ Value.obj 1 2 := by
  have hsing := (singleton_and_transient_scope_semantics).1 envW 2 2 1
    sSing sSing1
    (Binding.mk 1 (Provider.classP 1)
      (ScopeInst.mk 0 1 ScopeKind.singleton true))
    (Value.obj 1 1) rfl rfl rfl
  have htran := (singleton_and_transient_scope_semantics).2 envW 2 2 1
    sTran sTran1 sTran2
    (Binding.mk 1 (Provider.classP 1)
      (ScopeInst.mk 0 0 ScopeKind.transient true))
    1 (Value.obj 1 1) (Value.obj 1 2) rfl rfl rfl rfl rfl
  exact ⟨hsing, rfl, rfl, htran⟩

/-- C9: supplying two (or three) of the target specifiers `to_class`,
`to_factory`, `to_value` to `bind` always raises `BindingError`,
independent of the key, the scope and the injector state; presence of
`to_value` means being distinct from `None`, as the source tests it. -/
theorem double_specifier_always_binding_error :
    ∀ (env : Env) (key c : Key) (pf : List Param × FactoryResult)
      (v : Value) (sc : ScopeClass) (s : InjectorState),
      bind env key (some c) (some pf) v sc s
          = (Except.error DIError.bindingError, s) ∧
      (v ≠ Value.vnone →
        bind env key (some c) Option.none v sc s
          = (Except.error DIError.bindingError, s)) ∧
      (v ≠ Value.vnone →
        bind env key Option.none (some pf) v sc s
          = (Except.error DIError.bindingError, s)) := by
  intro env key c pf v sc s
  refine ⟨?_, ?_, ?_⟩
  · unfold bind
    by_cases hv : v = Value.vnone <;> simp [hv]
  · intro hv
    unfold bind
    simp [hv]
  · intro hv
    unfold bind
    simp [hv]

/-- Witness for C9 at concrete inputs: each pair of specifiers fails
with `BindingError` on a fresh injector. -/
theorem double_specifier_always_binding_error_witness :
    bind envW 9 (some 1) (some ([], FactoryResult.retValue (Value.vint 0)))
        (Value.vint 7) SingletonScope initState
      = (Except.error DIError.bindingError, initState) ∧
    bind envW 9 (some 1) Option.none (Value.vint 7) SingletonScope initState
      = (Except.error DIError.bindingError, initState) ∧
    bind envW 9 Option.none
        (some ([], FactoryResult.retValue (Value.vint 0)))
        (Value.vint 7) SingletonScope initState
      = (Except.error DIError.bindingError, initState) := by
  obtain ⟨h1, h2, h3⟩ := double_specifier_always_binding_error envW 9 1
    ([], FactoryResult.retValue (Value.vint 0)) (Value.vint 7)
    SingletonScope initState
  exact ⟨h1, h2 (by decide), h3 (by decide)⟩

theorem getScopeInstance_cached (sc : ScopeClass) (s : InjectorState)
    (inst : ScopeInst)
    (h : getEntry s.scopeInstances sc.sid = some inst) :
    getScopeInstance sc s = (Except.ok inst, s) := by
  unfold getScopeInstance
  rw [h]

theorem getScopeInstance_caches (sc : ScopeClass) (s s1 : InjectorState)
    (inst : ScopeInst)
    (h : getScopeInstance sc s = (Except.ok inst, s1)) :
    getEntry s1.scopeInstances sc.sid = some inst := by
  unfold getScopeInstance at h
  split at h
  · rename_i i hi
    simp only [Prod.mk.injEq, Except.ok.injEq] at h
    obtain ⟨h1, h2⟩ := h
    rw [← h2, ← h1]
    exact hi
  · split at h
    · simp only [Prod.mk.injEq, Except.ok.injEq] at h
      obtain ⟨h1, h2⟩ := h
      rw [← h2, ← h1]
      exact getEntry_setEntry_self _ _ _
    · split at h
      · simp only [Prod.mk.injEq, Except.ok.injEq] at h
        obtain ⟨h1, h2⟩ := h
        rw [← h2, ← h1]
        exact getEntry_setEntry_self _ _ _
      · simp at h
    · simp at h

theorem getScopeInstance_kind (sc : ScopeClass) (s s1 : InjectorState)
    (inst : ScopeInst)
    (h : getScopeInstance sc s = (Except.ok inst, s1))
    (hcons : scopeCacheConsistent s sc) :
    inst.kind = sc.kind := by
  unfold getScopeInstance at h
  split at h
  · rename_i i hi
    simp only [Prod.mk.injEq, Except.ok.injEq] at h
    obtain ⟨h1, h2⟩ := h
    rw [← h1]
    exact hcons i hi
  · split at h
    · simp only [Prod.mk.injEq, Except.ok.injEq] at h
      obtain ⟨h1, h2⟩ := h
      rw [← h1]
    · split at h
      · simp only [Prod.mk.injEq, Except.ok.injEq] at h
        obtain ⟨h1, h2⟩ := h
        rw [← h1]
      · simp at h
    · simp at h

/-- Counterexample to C4 as stated: resolving key 7 — a class whose
only constructor parameter is the rest-positional `*args : 9` with the
non-class key 9 unbound — raises `ResolutionError`, because
`_resolve_dependencies` performs the nested `injector.get(9)` for the
annotated variadic parameter before its kind is examined; the claim
says such a parameter can never cause a raise. -/
theorem variadic_claim_counterexample :
    (get envW 5 7 initState).1 = Except.error DIError.resolutionError
    ∧ (envW.classes 7).isSome = true := by
  exact ⟨rfl, rfl⟩

/-- C4 (amended): a variadic (rest-positional or rest-keyword)
parameter never receives an injected value — it is omitted from the
positional and keyword argument lists regardless of annotation — but
when it carries a type annotation the resolver still performs the
nested `get` for that annotation first: the resolution's state effects
happen, an error from it propagates unchanged, and on success the
resolved value is dropped. -/
theorem variadic_params_amended :
    ∀ (getFn : GetFn) (p : Param) (rest : List Param)
      (s : InjectorState),
      (p.kind = ParamKind.varPos ∨ p.kind = ParamKind.varKw) →
      ((p.annot = Option.none →
          resolveDeps getFn (p :: rest) s = resolveDeps getFn rest s)
       ∧ (∀ t e s1, p.annot = some t →
            getFn t s = (Except.error e, s1) →
            resolveDeps getFn (p :: rest) s = (Except.error e, s1))
       ∧ (∀ t v s1, p.annot = some t →
            getFn t s = (Except.ok v, s1) →
            resolveDeps getFn (p :: rest) s
              = resolveDeps getFn rest s1)) := by
  intro getFn p rest s hkind
  refine ⟨?_, ?_, ?_⟩
  · intro hann
    simp only [resolveDeps, hann]
  · intro t e s1 hann hget
    simp only [resolveDeps, hann]
    rw [hget]
  · intro t v s1 hann hget
    simp only [resolveDeps, hann]
    rw [hget]
    dsimp only
    rcases hr : resolveDeps getFn rest s1 with ⟨r, s2⟩
    cases r with
    | error e => rfl
    | ok aw =>
      obtain ⟨args, kwargs⟩ := aw
      rcases hkind with hk | hk <;> rw [hk]

/-- Witness for C4 (amended): resolving the annotated `*args : 1`
parameter performs the nested `get(1)` (whose result is dropped) and
the overall result equals resolving the remaining (empty) list in the
post-`get` state. -/
theorem variadic_params_amended_witness :
    resolveDeps (get envW 2)
        [Param.mk "args" ParamKind.varPos (some 1) Option.none] initState
      = resolveDeps (get envW 2) [] ((get envW 2 1 initState).2) :=
  (variadic_params_amended (get envW 2)
      (Param.mk "args" ParamKind.varPos (some 1) Option.none) [] initState
      (Or.inl rfl)).2.2 1 (Value.obj 1 1) ((get envW 2 1 initState).2)
    rfl rfl

/-- C5 (code bug): the claim — and the repository's own test
`test_bind_to_value_none` — require `bind(key, to_value=None)` to
register a Value provider so that `get(key)` returns exactly `None`.
The source instead tests presence with `to_value is not None`, so the
call is indistinguishable from `bind(key)`: for a class key it
self-binds a Class provider and `get` returns a fresh instance (never
`None`), and for a non-class key it raises `BindingError`. -/
theorem to_value_none_code_bug :
    bind envW 1 Option.none Option.none Value.vnone TransientScope
        initState
      = (Except.ok (), sTran)
    ∧ getEntry sTran.bindings 1
      = some (Binding.mk 1 (Provider.classP 1)
          (ScopeInst.mk 0 0 ScopeKind.transient true))
    ∧ (get envW 3 1 sTran).1 = Except.ok (Value.obj 1 1)
    ∧ Value.obj 1 1 ≠ Value.vnone
    ∧ bind envW 9 Option.none Option.none Value.vnone TransientScope
        initState
      = (Except.error DIError.bindingError, initState) := by
  exact ⟨rfl, rfl, rfl, by decide, rfl⟩

/-- C6: for a parameter that carries a type marker, the resolver calls
the injector on that marked type unconditionally — even when the
parameter also declares a default value `d`: any error from the nested
`get` propagates unchanged, and on success the parameter is filled with
the resolved value (positionally or by keyword according to its kind),
never with `d`, which appears nowhere in the result. -/
theorem marked_param_overrides_default :
    ∀ (getFn : GetFn) (p : Param) (t : Key) (d : Value)
      (rest : List Param) (s : InjectorState),
      p.annot = some t → p.dflt = some d →
      ((∀ e s1, getFn t s = (Except.error e, s1) →
          resolveDeps getFn (p :: rest) s = (Except.error e, s1))
       ∧ (∀ v s1 args kwargs s2, getFn t s = (Except.ok v, s1) →
            resolveDeps getFn rest s1 = (Except.ok (args, kwargs), s2) →
            resolveDeps getFn (p :: rest) s
              = (Except.ok
                  (if p.kind = ParamKind.posOnly
                      ∨ p.kind = ParamKind.posOrKw then
                    (v :: args, kwargs)
                   else if p.kind = ParamKind.kwOnly then
                    (args, (p.pname, v) :: kwargs)
                   else (args, kwargs)), s2))) := by
  intro getFn p t d rest s hann hdflt
  refine ⟨?_, ?_⟩
  · intro e s1 hget
    simp only [resolveDeps, hann]
    rw [hget]
  · intro v s1 args kwargs s2 hget hrest
    simp only [resolveDeps, hann]
    rw [hget]
    dsimp only
    rw [hrest]
    cases hk : p.kind <;> simp [hk]

/-- Witness for C6: the parameter of class 6 — type marker key 1 with
default 30 — is filled with the freshly resolved instance of class 1,
not with the default. -/
theorem marked_param_overrides_default_witness :
    resolveDeps (get envW 2)
        [Param.mk "a" ParamKind.posOrKw (some 1) (some (Value.vint 30))]
        initState
      = (Except.ok ([Value.obj 1 1], []), (get envW 2 1 initState).2) := by
  have h := (marked_param_overrides_default (get envW 2)
    (Param.mk "a" ParamKind.posOrKw (some 1) (some (Value.vint 30)))
    1 (Value.vint 30) [] initState rfl rfl).2
    (Value.obj 1 1) ((get envW 2 1 initState).2) [] []
    ((get envW 2 1 initState).2) rfl rfl
  simpa using h

/-- Counterexample to C7 as stated: instantiating `badScope` — whose
constructor raises a non-`TypeError` when called with the injector —
during `bind` propagates that error unchanged instead of raising
`BindingError`, so "every failure to instantiate the scope class raises
BindingError" is false (`except TypeError` only guards the
injector-argument attempt). -/
theorem scope_failure_claim_counterexample :
    (bind envW 3 (some 1) Option.none Value.vnone badScope initState).1
      = Except.error (DIError.pyError PyErrKind.otherErr)
    ∧ DIError.pyError PyErrKind.otherErr ≠ DIError.bindingError := by
  exact ⟨rfl, by decide⟩

/-- C7 (amended): `bind` lazily creates at most one scope instance per
scope class, cached by scope-class identity and shared across all
bindings that use the class — a cached instance is returned unchanged
and nothing is re-constructed; a fresh instance is built by calling the
class with the injector, falling back to the no-argument form only on
`TypeError`; a failure of the no-argument fallback raises
`BindingError`, while a non-`TypeError` failure of the injector-argument
attempt propagates unchanged. -/
theorem scope_instance_semantics_amended :
    (∀ (env : Env) (k1 k2 c1 c2 : Key) (sc : ScopeClass)
       (s s1 s2 : InjectorState),
       k1 ≠ k2 →
       bind env k1 (some c1) Option.none Value.vnone sc s
         = (Except.ok (), s1) →
       bind env k2 (some c2) Option.none Value.vnone sc s1
         = (Except.ok (), s2) →
       s2.scopeInstances = s1.scopeInstances ∧
       ∃ inst, getEntry s1.scopeInstances sc.sid = some inst ∧
         getEntry s2.bindings k1
           = some (Binding.mk k1 (Provider.classP c1) inst) ∧
         getEntry s2.bindings k2
           = some (Binding.mk k2 (Provider.classP c2) inst))
    ∧ (∀ (sc : ScopeClass) (s : InjectorState) (inst : ScopeInst),
        getEntry s.scopeInstances sc.sid = some inst →
        getScopeInstance sc s = (Except.ok inst, s))
    ∧ (∀ (sc : ScopeClass) (s : InjectorState),
        getEntry s.scopeInstances sc.sid = Option.none →
        (sc.initWithInjector = Option.none →
          getScopeInstance sc s
            = (Except.ok (ScopeInst.mk s.counter sc.sid sc.kind true),
               { s with counter := s.counter + 1,
                        scopeInstances := setEntry s.scopeInstances sc.sid
                          (ScopeInst.mk s.counter sc.sid sc.kind true) }))
        ∧ (sc.initWithInjector = some PyErrKind.typeErr →
            sc.initNoArg = Option.none →
            getScopeInstance sc s
              = (Except.ok (ScopeInst.mk s.counter sc.sid sc.kind false),
                 { s with counter := s.counter + 1,
                          scopeInstances :=
                            setEntry s.scopeInstances sc.sid
                              (ScopeInst.mk s.counter sc.sid sc.kind
                                false) }))
        ∧ (∀ e, sc.initWithInjector = some PyErrKind.typeErr →
            sc.initNoArg = some e →
            getScopeInstance sc s
              = (Except.error DIError.bindingError, s))
        ∧ (sc.initWithInjector = some PyErrKind.otherErr →
            getScopeInstance sc s
              = (Except.error (DIError.pyError PyErrKind.otherErr), s))) := by
  refine ⟨?_, ?_, ?_⟩
  · intro env k1 k2 c1 c2 sc s s1 s2 hk12 h1 h2
    rw [bind_toClass_eq] at h1
    split at h1
    · simp at h1
    · rename_i inst sMid heq
      simp only [Prod.mk.injEq, true_and] at h1
      have hcache1 : getEntry s1.scopeInstances sc.sid = some inst := by
        rw [← h1]
        exact getScopeInstance_caches sc s sMid inst heq
      rw [bind_toClass_eq, getScopeInstance_cached sc s1 inst hcache1]
        at h2
      simp only [Prod.mk.injEq, true_and] at h2
      constructor
      · rw [← h2]
      · refine ⟨inst, hcache1, ?_, ?_⟩
        · rw [← h2]
          have hb1 : getEntry s1.bindings k1
              = some (Binding.mk k1 (Provider.classP c1) inst) := by
            rw [← h1]
            exact getEntry_setEntry_self _ _ _
          calc getEntry (setEntry s1.bindings k2
                  (Binding.mk k2 (Provider.classP c2) inst)) k1
              = getEntry s1.bindings k1 :=
                getEntry_setEntry_ne _ _ _ _ (fun h => hk12 h.symm)
            _ = some (Binding.mk k1 (Provider.classP c1) inst) := hb1
        · rw [← h2]
          exact getEntry_setEntry_self _ _ _
  · intro sc s inst h
    exact getScopeInstance_cached sc s inst h
  · intro sc s hnone
    refine ⟨?_, ?_, ?_, ?_⟩
    · intro hwi
      unfold getScopeInstance
      rw [hnone, hwi]
    · intro hwi hna
      unfold getScopeInstance
      rw [hnone, hwi, hna]
    · intro e hwi hna
      unfold getScopeInstance
      rw [hnone, hwi, hna]
    · intro hwi
      unfold getScopeInstance
      rw [hnone, hwi]

/-- Witness for C7 (amended): binding keys 8 and 9 with
`SingletonScope` on a fresh injector shares one scope instance; the
construction and failure clauses evaluated on the concrete scope
classes of this development. -/
theorem scope_instance_semantics_amended_witness :
    ((bind envW 9 (some 1) Option.none Value.vnone SingletonScope
        ((bind envW 8 (some 1) Option.none Value.vnone SingletonScope
          initState).2)).2).scopeInstances
      = ((bind envW 8 (some 1) Option.none Value.vnone SingletonScope
          initState).2).scopeInstances
    ∧ getScopeInstance TransientScope sAuto
      = (Except.ok (ScopeInst.mk 0 0 ScopeKind.transient true), sAuto)
    ∧ getScopeInstance SingletonScope initState
      = (Except.ok (ScopeInst.mk 0 1 ScopeKind.singleton true),
         InjectorState.mk [] [] []
           [(1, ScopeInst.mk 0 1 ScopeKind.singleton true)] 1 [])
    ∧ getScopeInstance fallbackScope initState
      = (Except.ok (ScopeInst.mk 0 6 ScopeKind.singleton false),
         InjectorState.mk [] [] []
           [(6, ScopeInst.mk 0 6 ScopeKind.singleton false)] 1 [])
    ∧ getScopeInstance failScope initState
      = (Except.error DIError.bindingError, initState)
    ∧ getScopeInstance badScope initState
      = (Except.error (DIError.pyError PyErrKind.otherErr), initState) := by
  refine ⟨?_, ?_, ?_, ?_, ?_, ?_⟩
  · exact (scope_instance_semantics_amended.1 envW 8 9 1 1 SingletonScope
      initState _ _ (by decide) rfl rfl).1
  · exact scope_instance_semantics_amended.2.1 TransientScope sAuto
      (ScopeInst.mk 0 0 ScopeKind.transient true) rfl
  · exact (scope_instance_semantics_amended.2.2 SingletonScope initState
      rfl).1 rfl
  · exact (scope_instance_semantics_amended.2.2 fallbackScope initState
      rfl).2.1 rfl rfl
  · exact (scope_instance_semantics_amended.2.2 failScope initState
      rfl).2.2.1 PyErrKind.otherErr rfl rfl
  · exact (scope_instance_semantics_amended.2.2 badScope initState
      rfl).2.2.2 rfl

/-- Counterexample to C8 as stated: key 10 is a constructible type
(a class) with no registered binding, yet `get(10)` does not resolve
successfully — its constructor parameter is annotated with the
unbound non-class key 9, so the resolution through the auto-binding
raises `ResolutionError`. -/
theorem unbound_class_claim_counterexample :
    (envW.classes 10).isSome = true
    ∧ getEntry initState.bindings 10 = Option.none
    ∧ (get envW 5 10 initState).1 = Except.error DIError.resolutionError
    := ⟨rfl, rfl, rfl⟩

/-- C8 (amended): for an unbound key, `get` raises `ResolutionError`
when the key is not a class, with the state untouched; when the key is
a class it auto-binds the key to itself with a Class provider and the
Transient scope and resolves through that auto-binding — succeeding
exactly when the class's constructor dependencies resolve (in
particular, a parameterless class yields a fresh instance), and in
every case the transient self-binding is registered, even when the
resolution afterwards fails. -/
theorem unbound_key_resolution_amended :
    (∀ (env : Env) (fuel : Nat) (key : Key) (s : InjectorState),
       key ∉ s.currentlyResolving →
       getEntry s.bindings key = Option.none →
       env.classes key = Option.none →
       get env (fuel + 1) key s
         = (Except.error DIError.resolutionError, s))
    ∧ (∀ (env : Env) (fuel : Nat) (key : Key) (s : InjectorState)
         (inst : ScopeInst),
       key ∉ s.currentlyResolving →
       getEntry s.bindings key = Option.none →
       env.classes key = some [] →
       getEntry s.scopeInstances 0 = some inst →
       inst.kind = ScopeKind.transient →
       get env (fuel + 1) key s
         = (Except.ok (Value.obj key s.counter),
            { s with
                bindings :=
                  setEntry s.bindings key
                    (Binding.mk key (Provider.classP key) inst),
                counter := s.counter + 1,
                provLog := key :: s.provLog }))
    ∧ (∀ (env : Env) (fuel : Nat) (key : Key) (s : InjectorState)
         (ps : List Param) (inst : ScopeInst),
       key ∉ s.currentlyResolving →
       getEntry s.bindings key = Option.none →
       env.classes key = some ps →
       getEntry s.scopeInstances 0 = some inst →
       getEntry (((get env (fuel + 1) key s).2).bindings) key
         = some (Binding.mk key (Provider.classP key) inst)) := by
  refine ⟨?_, ?_, ?_⟩
  · intro env fuel key s hmem hb hc
    exact get_step_unbound_nonclass env fuel key s hmem hb hc
  · intro env fuel key s inst hmem hb hc hsc hkind
    rw [get_step_unbound_class env fuel key s [] inst hmem hb hc hsc]
    unfold runScope
    rw [show (Binding.mk key (Provider.classP key) inst).scope.kind
        = inst.kind from rfl]
    rw [hkind]
    simp only [callProvider]
    rw [hc]
    simp only [resolveDeps, finallyRemove]
    rw [removeKey_cons_self]
  · intro env fuel key s ps inst hmem hb hc hsc
    rw [get_step_unbound_class env fuel key s ps inst hmem hb hc hsc]
    exact runScope_bindings env (get env fuel) (get_bindings env fuel) key
      (Binding.mk key (Provider.classP key) inst)
      ({ s with
           bindings :=
             setEntry s.bindings key
               (Binding.mk key (Provider.classP key) inst),
           currentlyResolving := key :: s.currentlyResolving })
      key (Binding.mk key (Provider.classP key) inst)
      (getEntry_setEntry_self _ _ _)

/-- Witness for C8 (amended): the non-class key 9 fails; the unbound
parameterless class 8 auto-binds and yields a fresh instance in the
state `sAuto` (where the transient scope instance is already cached);
the auto-binding of class 10 is registered even though its resolution
fails. -/
theorem unbound_key_resolution_amended_witness :
    get envW 4 9 initState
      = (Except.error DIError.resolutionError, initState)
    ∧ get envW 4 8 sAuto
      = (Except.ok (Value.obj 8 sAuto.counter),
         { sAuto with
             bindings :=
               setEntry sAuto.bindings 8
                 (Binding.mk 8 (Provider.classP 8)
                   (ScopeInst.mk 0 0 ScopeKind.transient true)),
             counter := sAuto.counter + 1,
             provLog := 8 :: sAuto.provLog })
    ∧ getEntry (((get envW 4 10 sAuto).2).bindings) 10
      = some (Binding.mk 10 (Provider.classP 10)
          (ScopeInst.mk 0 0 ScopeKind.transient true)) := by
  refine ⟨?_, ?_, ?_⟩
  · exact unbound_key_resolution_amended.1 envW 3 9 initState
      (by decide) rfl rfl
  · exact unbound_key_resolution_amended.2.1 envW 3 8 sAuto
      (ScopeInst.mk 0 0 ScopeKind.transient true)
      (by decide) rfl rfl rfl rfl
  · exact unbound_key_resolution_amended.2.2 envW 3 10 sAuto
      [Param.mk "x" ParamKind.posOrKw (some 9) Option.none]
      (ScopeInst.mk 0 0 ScopeKind.transient true)
      (by decide) rfl rfl rfl

/-- C10: after a key bound with Singleton scope has been resolved (its
value sits in the injector's singleton cache), a later `bind` call for
the same key replaces the binding but leaves the singleton cache
untouched (indeed no `bind` call ever modifies the cache), so a
subsequent `get` under Singleton scope returns the previously cached
instance, with the state unchanged — the new binding's provider is
never invoked. -/
theorem rebind_preserves_singleton_cache :
    ∀ (env : Env) (fuel fuel2 : Nat) (key c : Key)
      (s s1 s2 : InjectorState) (bd : Binding) (v : Value)
      (sc : ScopeClass),
      getEntry s.bindings key = some bd →
      bd.scope.kind = ScopeKind.singleton →
      get env (fuel + 1) key s = (Except.ok v, s1) →
      sc.kind = ScopeKind.singleton →
      scopeCacheConsistent s1 sc →
      bind env key (some c) Option.none Value.vnone sc s1
        = (Except.ok (), s2) →
      (∀ (k2 : Key) (tc : Option Key)
         (tf : Option (List Param × FactoryResult)) (tv : Value)
         (sc2 : ScopeClass),
         ((bind env k2 tc tf tv sc2 s1).2).instances = s1.instances)
      ∧ s2.instances = s1.instances
      ∧ getEntry s2.instances key = some v
      ∧ get env (fuel2 + 1) key s2 = (Except.ok v, s2) := by
  intro env fuel fuel2 key c s s1 s2 bd v sc hb hk h1 hsck hcons h2
  have hmem := get_success_not_inflight env fuel key s s1 v h1
  have hcache :=
    get_singleton_success_cached env fuel key s s1 bd v hb hk h1
  have h1res : s1.currentlyResolving = s.currentlyResolving := by
    have hx := get_resolving env (fuel + 1) key s
    rw [h1] at hx
    exact hx
  rw [bind_toClass_eq] at h2
  split at h2
  · simp at h2
  · rename_i inst sMid heq
    simp only [Prod.mk.injEq, true_and] at h2
    have hkind : inst.kind = ScopeKind.singleton := by
      rw [getScopeInstance_kind sc s1 sMid inst heq hcons]
      exact hsck
    have hfr := getScopeInstance_frame sc s1
    rw [heq] at hfr
    have hinstEq : s2.instances = s1.instances := by
      rw [← h2]
      exact hfr.2.1
    have hres2 : s2.currentlyResolving = s.currentlyResolving := by
      rw [← h2]
      exact hfr.2.2.1.trans h1res
    refine ⟨?_, hinstEq, ?_, ?_⟩
    · intro k2 tc tf tv sc2
      exact (bind_frame env k2 tc tf tv sc2 s1).1
    · rw [hinstEq]
      exact hcache
    · refine get_singleton_cache_hit env fuel2 key s2
        (Binding.mk key (Provider.classP c) inst) v ?_ ?_ hkind ?_
      · rw [hres2]
        exact hmem
      · rw [← h2]
        exact getEntry_setEntry_self _ _ _
      · rw [hinstEq]
        exact hcache

/-- Witness for C10: key 1 resolved under its Singleton binding, then
rebound to class 8 (still Singleton): the cache keeps the original
object and the subsequent `get` returns it unchanged. -/
theorem rebind_preserves_singleton_cache_witness :
    ((bind envW 1 (some 8) Option.none Value.vnone SingletonScope
        sSing1).2).instances = sSing1.instances
    ∧ getEntry ((bind envW 1 (some 8) Option.none Value.vnone
        SingletonScope sSing1).2).instances 1 = some (Value.obj 1 1)
    ∧ get envW 3 1 ((bind envW 1 (some 8) Option.none Value.vnone
        SingletonScope sSing1).2)
      = (Except.ok (Value.obj 1 1),
         (bind envW 1 (some 8) Option.none Value.vnone SingletonScope
           sSing1).2) := by
  have h := rebind_preserves_singleton_cache envW 2 2 1 8 sSing sSing1
    ((bind envW 1 (some 8) Option.none Value.vnone SingletonScope
      sSing1).2)
    (Binding.mk 1 (Provider.classP 1)
      (ScopeInst.mk 0 1 ScopeKind.singleton true))
    (Value.obj 1 1) SingletonScope rfl rfl rfl rfl
    (by
      intro i hi
      have hc : (some (ScopeInst.mk 0 1 ScopeKind.singleton true) :
          Option ScopeInst) = some i := by
        rw [← hi]
        rfl
      injection hc with hc2
      rw [← hc2]
      rfl)
    rfl
  exact ⟨h.2.1, h.2.2.1, h.2.2.2⟩

end CustomInjector
